import Mathlib

/-!
Verification of the evo-python-sdk specification against a shallow embedding
of its core components: the OAuth token store and authorizers, the
reference-counted transport, the API connector, and the chunked I/O manager.

The repository ships the Python implementation separately; the tree under
verification carries its documentation (`docs/oauth.md`, the getting-started
guides, the file-io reference).  Every definition below is therefore
modelled from the specification text, cross-checked against the repository
documentation where it is explicit (refresh cooldown, refresh-token errors,
the transport reference counter, the offline_access scope requirement).
-/

namespace EvoSdk

/-! ## Token data model -/

/-- Modelled from the spec: a Token is
`{access_token, refresh_token (optional), expiry timestamp, scopes}`,
immutable once issued and replaced (not mutated) on refresh.  Scopes are
carried as an opaque list of scope names; time is in whole seconds. -/
structure Token where
  access_token : String
  refresh_token : Option String
  expiry : Nat
  scopes : List String
  deriving Repr, DecidableEq

/-- Modelled from the spec: the refresh safety margin, "expired or about to
expire within a safety margin (e.g. 60 seconds)". -/
def safetyMarginSeconds : Nat := 60

/-- Modelled from the spec: the refresh cooldown window, "a minimum cooldown
window (e.g. 5 minutes) of the last successful refresh"; `docs/oauth.md`
confirms 5 minutes. -/
def cooldownSeconds : Nat := 300

/-- A token is expired at time `now` when its expiry has passed. -/
def Token.isExpired (t : Token) (now : Nat) : Bool :=
  t.expiry ≤ now

/-- A token is stale at time `now` when it is expired or will expire within
the safety margin; staleness is what forces a refresh in
`get_default_headers`. -/
def Token.isStale (t : Token) (now : Nat) : Bool :=
  t.expiry ≤ now + safetyMarginSeconds

/-! ## Authorizer state and refresh -/

/-- Modelled from the spec: the mutable state owned by a single Authorizer
instance — the cached token (if any) and the time of the last successful
refresh (for the cooldown check).  The `AccessTokenAuthorizer` variant is
the special case whose token carries no refresh token. -/
structure AuthorizerState where
  token : Option Token
  lastRefresh : Option Nat
  deriving Repr, DecidableEq

/-- The refresh token currently available to the authorizer, if any. -/
def AuthorizerState.refreshTokenOf (st : AuthorizerState) : Option String :=
  st.token.bind Token.refresh_token

/-- Modelled from the spec error taxonomy: `AuthError` subkinds
AuthTimeout, AuthDenied, NoRefreshToken, InvalidToken.  (The Python
implementation surfaces these through `OAuthError` per `docs/oauth.md`;
the spec names the kinds.) -/
inductive AuthErrorKind where
  | AuthTimeout
  | AuthDenied
  | NoRefreshToken
  | InvalidToken
  deriving Repr, DecidableEq

/-- The outcome the OAuth provider / transport would deliver for one network
refresh call, supplied as an oracle so the embedding stays pure: a fresh
token, a transport failure, or a provider error response. -/
inductive RefreshOutcome where
  | success (newToken : Token)
  | transportError
  | providerError
  deriving Repr, DecidableEq

/-- Result of one `refresh_token()` call: the returned value (`Bool`, or an
`AuthError` raised), the authorizer state afterwards, and how many network
calls to the token endpoint were made. -/
structure RefreshCall where
  result : Except AuthErrorKind Bool
  state : AuthorizerState
  networkCalls : Nat
  deriving Repr

/-- The cooldown predicate: a refresh at `now` is within the cooldown window
when a successful refresh happened less than `cooldownSeconds` ago. -/
def AuthorizerState.inCooldown (st : AuthorizerState) (now : Nat) : Bool :=
  match st.lastRefresh with
  | some t0 => now < t0 + cooldownSeconds
  | none => false

namespace Authorizer

/-- Modelled from the spec: `refresh_token()` "fails fast (returns false /
no-op) if called within a minimum cooldown window of the last successful
refresh"; "returns false on any transport or provider error, surfacing no
exception to the caller"; "if no refresh token is available, refresh must
fail with `AuthError` of kind `NoRefreshToken`".  On success the token is
replaced and the last-refresh time recorded.  `docs/oauth.md` states the
same contract for `AuthorizationCodeAuthorizer.refresh_token()`. -/
def refresh_token (st : AuthorizerState) (now : Nat) (outcome : RefreshOutcome) :
    RefreshCall :=
  if st.inCooldown now then
    { result := .ok false, state := st, networkCalls := 0 }
  else
    match st.refreshTokenOf with
    | none => { result := .error .NoRefreshToken, state := st, networkCalls := 0 }
    | some _ =>
      match outcome with
      | .success newToken =>
          { result := .ok true
            state := { token := some newToken, lastRefresh := some now }
            networkCalls := 1 }
      | .transportError => { result := .ok false, state := st, networkCalls := 1 }
      | .providerError => { result := .ok false, state := st, networkCalls := 1 }

end Authorizer

/-! ## Default headers -/

/-- The bearer-token header mapping built from a token. -/
def headersOf (t : Token) : List (String × String) :=
  [("Authorization", "Bearer " ++ t.access_token)]

/-- Result of one `get_default_headers()` call: the returned headers (or the
auth error raised), the state afterwards, the number of refresh attempts
made, and the number of network calls made. -/
structure HeadersCall where
  result : Except AuthErrorKind (List (String × String))
  state : AuthorizerState
  refreshAttempts : Nat
  networkCalls : Nat
  deriving Repr

namespace Authorizer

/-- Modelled from the spec: `get_default_headers()` "returns a mapping
including the bearer token; it MUST trigger a refresh if the cached token is
expired or about to expire within a safety margin".  With no token the call
fails; with a stale token it makes exactly one refresh attempt and then
either returns headers from a still-valid token or fails without returning
headers from an expired one. -/
def get_default_headers (st : AuthorizerState) (now : Nat)
    (outcome : RefreshOutcome) : HeadersCall :=
  match st.token with
  | none =>
      { result := .error .InvalidToken, state := st
        refreshAttempts := 0, networkCalls := 0 }
  | some t =>
      if t.isStale now then
        match (refresh_token st now outcome).state.token with
        | some t' =>
            if t'.isExpired now then
              { result := .error (match (refresh_token st now outcome).result with
                  | .error e => e
                  | .ok _ => .InvalidToken)
                state := (refresh_token st now outcome).state
                refreshAttempts := 1
                networkCalls := (refresh_token st now outcome).networkCalls }
            else
              { result := .ok (headersOf t')
                state := (refresh_token st now outcome).state
                refreshAttempts := 1
                networkCalls := (refresh_token st now outcome).networkCalls }
        | none =>
            { result := .error .InvalidToken
              state := (refresh_token st now outcome).state
              refreshAttempts := 1
              networkCalls := (refresh_token st now outcome).networkCalls }
      else
        { result := .ok (headersOf t), state := st
          refreshAttempts := 0, networkCalls := 0 }

end Authorizer

/-! ## OAuth scopes and login (spec §4.1, docs/oauth.md) -/

/-- Modelled from the spec and `docs/oauth.md`: the OAuth scopes exposed by
`OAuthScopes`, including the `offline_access` scope that must be requested
explicitly to obtain a refresh token. -/
inductive OAuthScope where
  | openid
  | profile
  | evo_discovery
  | evo_workspace
  | offline_access
  deriving Repr, DecidableEq

/-- Modelled from `docs/oauth.md`: the predefined scope groups
(`OAuthScopes.openid`, `.profile`, `.evo_discovery`, `.evo_workspace`, and
the combined `.all_evo`).  Per the docs, "Offline access is not included by
default in any of the predefined scope groups." -/
def predefinedScopeGroups : List (List OAuthScope) :=
  [[.openid], [.profile], [.evo_discovery], [.evo_workspace],
   [.openid, .profile, .evo_discovery, .evo_workspace]]

/-- The scope name as sent to the provider. -/
def OAuthScope.name : OAuthScope → String
  | .openid => "openid"
  | .profile => "profile"
  | .evo_discovery => "evo.discovery"
  | .evo_workspace => "evo.workspace"
  | .offline_access => "offline_access"

namespace Authorizer

/-- Modelled from the spec and `docs/oauth.md`: a successful
`AuthorizationCodeAuthorizer.login()` exchanges the code for a Token; the
provider returns a refresh token only when the `offline_access` scope was
requested at login ("You MUST request the `offline_access` scope at login
to get a refresh token").  Login is not itself a refresh, so the
last-successful-refresh time is unset. -/
def login (scopes : List OAuthScope) (accessTok refreshTok : String)
    (expiry : Nat) : AuthorizerState :=
  { token := some
      { access_token := accessTok
        refresh_token :=
          if OAuthScope.offline_access ∈ scopes then some refreshTok else none
        expiry := expiry
        scopes := scopes.map OAuthScope.name }
    lastRefresh := none }

/-- The results of a sequence of `refresh_token()` calls, each made at its
own time against the state left by the previous one. -/
def refreshSeq (st : AuthorizerState) :
    List (Nat × RefreshOutcome) → List (Except AuthErrorKind Bool)
  | [] => []
  | (now, oc) :: rest =>
      (refresh_token st now oc).result ::
        refreshSeq (refresh_token st now oc).state rest

end Authorizer

/-! ## Concurrent refresh serialization (spec §4.1, §5) -/

/-- Where one logical caller of `get_default_headers()` stands in the
refresh protocol: not yet run, suspended awaiting the single in-flight
refresh, or finished. -/
inductive CallerPhase where
  | start
  | waiting
  | done
  deriving Repr, DecidableEq

/-- Modelled from the spec: the shared per-Authorizer state seen by N
concurrent callers under single-threaded cooperative concurrency — whether
the cached token is currently fresh, whether a refresh network call is in
flight, how many token-endpoint calls have been made, and each caller's
phase. -/
structure RefreshRace where
  tokenFresh : Bool
  inFlight : Bool
  networkCalls : Nat
  callers : List CallerPhase
  deriving Repr, DecidableEq

/-- A scheduler directive under cooperative concurrency: run caller `i` up
to its next suspension point, or deliver the completion of the in-flight
refresh network call. -/
inductive RaceDir where
  | run (i : Nat)
  | complete
  deriving Repr, DecidableEq

namespace RefreshRace

/-- Modelled from the spec: one caller's step.  A caller finding a fresh
token finishes without refreshing; one finding a refresh already in flight
suspends on it ("other concurrent callers wait on that single attempt and
reuse its result"); otherwise it starts the single refresh, issuing the
network call, and suspends on its completion. -/
def stepCaller (s : RefreshRace) (i : Nat) : RefreshRace :=
  match s.callers.get? i with
  | some .start =>
      if s.tokenFresh then { s with callers := s.callers.set i .done }
      else if s.inFlight then { s with callers := s.callers.set i .waiting }
      else
        { s with inFlight := true
                 networkCalls := s.networkCalls + 1
                 callers := s.callers.set i .waiting }
  | _ => s

/-- Modelled from the spec: completion of the in-flight refresh network
call — the token is replaced by a fresh one and every suspended caller is
resumed with that shared result. -/
def stepComplete (s : RefreshRace) : RefreshRace :=
  if s.inFlight then
    { tokenFresh := true
      inFlight := false
      networkCalls := s.networkCalls
      callers := s.callers.map fun p => if p = .waiting then .done else p }
  else s

/-- One scheduler step. -/
def step (s : RefreshRace) : RaceDir → RefreshRace
  | .run i => s.stepCaller i
  | .complete => s.stepComplete

/-- Run a whole schedule. -/
def run (s : RefreshRace) (ds : List RaceDir) : RefreshRace :=
  ds.foldl step s

/-- N callers about to race on an Authorizer whose cached token is stale. -/
def init (n : Nat) : RefreshRace :=
  { tokenFresh := false, inFlight := false, networkCalls := 0
    callers := List.replicate n .start }

/-- The serialization invariant: the call count matches whether a refresh
is in flight or has completed (hence never exceeds one), and a caller can
only have finished once the shared token is fresh. -/
def Inv (s : RefreshRace) : Prop :=
  (s.networkCalls = if s.inFlight || s.tokenFresh then 1 else 0) ∧
  (∀ i, s.callers.get? i = some .done → s.tokenFresh = true)

end RefreshRace

/-! ## Transport: reference-counted connection pool (spec §4.2, part_007) -/

/-- Modelled from the spec and the getting-started guide: `AioTransport`
"uses an internal counter to track the number of places where the transport
is being used.  When the counter reaches zero, the underlying HTTP client
session is closed ...  The next time the transport is opened, a new session
will be created."  Sessions are identified by a generation number so that
"a fresh pool" is expressible. -/
structure AioTransport where
  refCount : Nat
  pool : Option Nat
  nextSessionId : Nat
  deriving Repr, DecidableEq

namespace AioTransport

/-- Modelled from the spec: `open()` increments the counter; opening at
count zero creates a fresh connection pool (a new session generation). -/
def open' (t : AioTransport) : AioTransport :=
  if t.refCount = 0 then
    { refCount := 1, pool := some t.nextSessionId
      nextSessionId := t.nextSessionId + 1 }
  else { t with refCount := t.refCount + 1 }

/-- Modelled from the spec: `close()` decrements the counter; the pool is
torn down only when the counter returns to zero. -/
def close (t : AioTransport) : AioTransport :=
  match t.refCount with
  | 0 => t
  | 1 => { t with refCount := 0, pool := none }
  | n + 2 => { t with refCount := n + 1 }

end AioTransport

/-- One `open()` or `close()` call in a usage history. -/
inductive TransportOp where
  | openOp
  | closeOp
  deriving Repr, DecidableEq

namespace AioTransport

/-- Apply one call. -/
def apply (t : AioTransport) : TransportOp → AioTransport
  | .openOp => t.open'
  | .closeOp => t.close

/-- Run a whole history of calls. -/
def runOps (t : AioTransport) (ops : List TransportOp) : AioTransport :=
  ops.foldl apply t

/-- Every state visited while running a history, the start state included. -/
def trace (t : AioTransport) : List TransportOp → List AioTransport
  | [] => [t]
  | op :: rest => t :: trace (t.apply op) rest

/-- A transport before any use. -/
def initT : AioTransport := { refCount := 0, pool := none, nextSessionId := 0 }

/-- Session generations already handed out stay below the generation
counter. -/
def SessionInv (t : AioTransport) : Prop :=
  ∀ id, t.pool = some id → id < t.nextSessionId

end AioTransport

/-! ## Transport: retry on transient failures (spec §4.2, §8) -/

/-- One HTTP attempt's outcome as seen by the Transport retry loop. -/
inductive HttpResult where
  | status (code : Nat)
  | connectionError
  | timeoutError
  deriving Repr, DecidableEq

/-- Modelled from the spec: retries apply only to transient conditions —
connection errors, timeouts, and HTTP 502, 503, 504, 429. -/
def isTransient : HttpResult → Bool
  | .connectionError => true
  | .timeoutError => true
  | .status code => code = 502 || code = 503 || code = 504 || code = 429

/-- The error surfaced when the retry budget is exhausted, carrying the
number of attempts made. -/
inductive TransportError where
  | retriesExhausted (attempts : Nat)
  deriving Repr, DecidableEq

/-- Modelled from the spec: the Transport attempt loop — attempt `i` with
`fuel` attempts remaining; a transient failure consumes one attempt and
retries, any other outcome is returned, and running out of attempts
surfaces a `TransportError`. -/
def attemptRequest (responses : Nat → HttpResult) :
    Nat → Nat → Except TransportError HttpResult
  | 0, i => .error (.retriesExhausted i)
  | fuel + 1, i =>
      if isTransient (responses i) then attemptRequest responses fuel (i + 1)
      else .ok (responses i)

/-- Modelled from the spec: execute a request with at most `maxAttempts`
attempts, retrying transient failures. -/
def executeRequest (maxAttempts : Nat) (responses : Nat → HttpResult) :
    Except TransportError HttpResult :=
  attemptRequest responses maxAttempts 0

/-! ## API Connector: 401 handling (spec §4.3, §7) -/

/-- The connector's normalized outcome for one logical API call: a typed
success or the surfaced auth failure. -/
inductive ApiResult where
  | success (status : Nat)
  | unauthorized
  deriving Repr, DecidableEq

/-- One logical `call_api` invocation: its outcome, how many forced token
refreshes it performed, and how many HTTP requests it sent. -/
structure ConnectorCall where
  result : ApiResult
  forcedRefreshes : Nat
  requestsSent : Nat
  deriving Repr, DecidableEq

/-- Modelled from the spec: the API Connector attaches fresh auth headers
per request and, "on receiving a 401, perform[s] exactly one forced
refresh-and-retry before surfacing an auth failure".  `responses n` is the
HTTP status the service returns to the (n+1)-th request of this call. -/
def call_api (responses : Nat → Nat) : ConnectorCall :=
  if responses 0 = 401 then
    if responses 1 = 401 then
      { result := .unauthorized, forcedRefreshes := 1, requestsSent := 2 }
    else
      { result := .success (responses 1), forcedRefreshes := 1, requestsSent := 2 }
  else
    { result := .success (responses 0), forcedRefreshes := 0, requestsSent := 1 }

/-! ## Chunked I/O Manager: round trip (spec §4.4, §8, file-io docs) -/

/-- Split a payload into consecutive chunks of `c` bytes (last chunk
partial), structurally recursing on a fuel bounded by the payload length so
that the definition is kernel-computable. -/
def splitChunksGo (c : Nat) : Nat → List Nat → List (List Nat)
  | 0, _ => []
  | _, [] => []
  | fuel + 1, x :: xs => ((x :: xs).take c) :: splitChunksGo c fuel ((x :: xs).drop c)

/-- Modelled from the spec: "payload is split into fixed-size chunks"; a
zero-byte payload yields zero chunks. -/
def splitChunks (c : Nat) (data : List Nat) : List (List Nat) :=
  splitChunksGo c data.length data

/-- The remote object produced by an upload: whether the destination was
created (the minimal signaling operation the spec requires even for empty
payloads) and the staged chunks in index order. -/
structure RemoteObject where
  created : Bool
  parts : List (List Nat)
  deriving Repr, DecidableEq

/-- Modelled from the spec: the Chunked I/O Manager's upload — it always
creates the destination (zero-byte payloads are "a valid,
explicitly-handled edge case ... rather than skipping the operation
entirely") and stages every chunk; finalization commits the ordered chunk
list. -/
def upload (c : Nat) (data : List Nat) : RemoteObject :=
  { created := true, parts := splitChunks c data }

/-- Modelled from the spec: the download reassembles the chunks in index
order; a destination that was never created yields nothing. -/
def download (obj : RemoteObject) : Option (List Nat) :=
  if obj.created then some obj.parts.flatten else none

/-! ## Chunked I/O Manager: cooperative cancellation (spec §4.4) -/

/-- The terminal disposition of one transfer. -/
inductive TransferOutcome where
  | completed
  | cancelled
  | failed (chunkIndex : Nat)
  deriving Repr, DecidableEq

/-- What one transfer run left behind: the terminal outcome, the number of
chunks that completed, and whether the finalize call was made. -/
structure TransferRun where
  outcome : TransferOutcome
  chunksCompleted : Nat
  finalized : Bool
  deriving Repr, DecidableEq

/-- The cooperative cancellation signal: raised once `k` chunks have
completed, observed by workers between chunks. -/
def cancelRequested (cancelAfter : Option Nat) (i : Nat) : Bool :=
  match cancelAfter with
  | some k => k ≤ i
  | none => false

/-- Modelled from the spec: the manager's chunk loop — workers "check
[the cancellation signal] between chunks (not forced mid-chunk)"; a chunk
failure (after its own retries) fails the transfer identifying the chunk
index; only when every chunk completes does the finalize call run. -/
def runChunks (cancelAfter : Option Nat) (chunkSucceeds : Nat → Bool) :
    Nat → Nat → TransferRun
  | 0, i => { outcome := .completed, chunksCompleted := i, finalized := true }
  | fuel + 1, i =>
      if cancelRequested cancelAfter i then
        { outcome := .cancelled, chunksCompleted := i, finalized := false }
      else if chunkSucceeds i then
        runChunks cancelAfter chunkSucceeds fuel (i + 1)
      else
        { outcome := .failed i, chunksCompleted := i, finalized := false }

/-- Run an n-chunk transfer from the beginning. -/
def runTransfer (n : Nat) (cancelAfter : Option Nat)
    (chunkSucceeds : Nat → Bool) : TransferRun :=
  runChunks cancelAfter chunkSucceeds n 0

/-- A token that expired at t = 100, holding a refresh token. -/
def staleToken : Token :=
  { access_token := "old", refresh_token := some "rt", expiry := 100, scopes := [] }

/-- The replacement token delivered by a successful refresh at t = 100. -/
def freshToken : Token :=
  { access_token := "new", refresh_token := some "rt", expiry := 3700, scopes := [] }

/-! ## Theorems: token lifecycle (spec §4.1, §8) -/

theorem Token.not_expired_of_not_stale (t : Token) (now : Nat)
    (h : t.isStale now = false) : t.isExpired now = false := by
  simp [Token.isStale, Token.isExpired, safetyMarginSeconds] at *
  omega

/-- C1: for every Authorizer (any cached-token state), a call to
`get_default_headers()` makes exactly one refresh attempt when the cached
token is expired or about to expire within the safety margin, never more
than one refresh attempt in any case, and any headers it returns are built
from a token that is not expired at call time. -/
theorem get_default_headers_expiry_contract (st : AuthorizerState) (now : Nat)
    (outcome : RefreshOutcome) :
    (∀ t, st.token = some t → t.isStale now = true →
      (Authorizer.get_default_headers st now outcome).refreshAttempts = 1) ∧
    (Authorizer.get_default_headers st now outcome).refreshAttempts ≤ 1 ∧
    (∀ hdrs, (Authorizer.get_default_headers st now outcome).result = .ok hdrs →
      ∃ t', (Authorizer.get_default_headers st now outcome).state.token = some t' ∧
        hdrs = headersOf t' ∧ t'.isExpired now = false) := by
  refine ⟨?_, ?_, ?_⟩
  · intro t htok hstale
    unfold Authorizer.get_default_headers
    rw [htok]
    simp only []
    rw [if_pos hstale]
    cases (Authorizer.refresh_token st now outcome).state.token with
    | none => rfl
    | some t' =>
      simp only []
      by_cases hexp : t'.isExpired now
      · rw [if_pos hexp]
      · rw [if_neg hexp]
  · unfold Authorizer.get_default_headers
    cases st.token with
    | none => simp
    | some t =>
      simp only []
      by_cases hstale : t.isStale now
      · rw [if_pos hstale]
        cases (Authorizer.refresh_token st now outcome).state.token with
        | none => simp
        | some t' =>
          simp only []
          by_cases hexp : t'.isExpired now
          · rw [if_pos hexp]
          · rw [if_neg hexp]
      · rw [if_neg hstale]
        simp
  · unfold Authorizer.get_default_headers
    cases htok : st.token with
    | none => intro hdrs h; simp at h
    | some t =>
      simp only []
      by_cases hstale : t.isStale now
      · rw [if_pos hstale]
        cases hct : (Authorizer.refresh_token st now outcome).state.token with
        | none => intro hdrs h; simp at h
        | some t' =>
          simp only []
          by_cases hexp : t'.isExpired now
          · rw [if_pos hexp]
            intro hdrs h
            simp at h
          · rw [if_neg hexp]
            intro hdrs h
            refine ⟨t', by simpa using hct, ?_, by simpa using hexp⟩
            simpa using h.symm
      · rw [if_neg hstale]
        intro hdrs h
        refine ⟨t, by simpa using htok, ?_,
          Token.not_expired_of_not_stale t now (by simpa using hstale)⟩
        simpa using h.symm

/-- C3: outside the cooldown window, `refresh_token()` fails with
`AuthError` of kind `NoRefreshToken` when no refresh token is available,
and returns `false` (raising no exception) on any transport or provider
error during the refresh. -/
theorem refresh_token_error_contract (st : AuthorizerState) (now : Nat)
    (outcome : RefreshOutcome) (hcd : st.inCooldown now = false) :
    (st.refreshTokenOf = none →
      (Authorizer.refresh_token st now outcome).result = .error .NoRefreshToken) ∧
    (∀ r, st.refreshTokenOf = some r →
      (outcome = .transportError ∨ outcome = .providerError) →
      (Authorizer.refresh_token st now outcome).result = .ok false) := by
  unfold Authorizer.refresh_token
  constructor
  · intro hnone
    simp [hcd, hnone]
  · intro r hr houtcome
    rcases houtcome with h | h <;> simp [hcd, hr, h]

/-- C4: a `refresh_token()` call made within the cooldown window of the
last successful refresh returns `False`, makes no network call to the token
endpoint, and leaves the authorizer state unchanged; here the first call
(outside cooldown, with a refresh token, succeeding) establishes the last
successful refresh at `t0` and the second call falls inside the window. -/
theorem refresh_token_cooldown (st : AuthorizerState) (t0 t1 : Nat)
    (newTok : Token) (outcome2 : RefreshOutcome) (r : String)
    (hrt : st.refreshTokenOf = some r)
    (hcd : st.inCooldown t0 = false)
    (hwin : t1 < t0 + cooldownSeconds) :
    (Authorizer.refresh_token st t0 (.success newTok)).result = .ok true ∧
    (Authorizer.refresh_token
      (Authorizer.refresh_token st t0 (.success newTok)).state t1 outcome2).result
        = .ok false ∧
    (Authorizer.refresh_token
      (Authorizer.refresh_token st t0 (.success newTok)).state t1 outcome2).networkCalls
        = 0 ∧
    (Authorizer.refresh_token
      (Authorizer.refresh_token st t0 (.success newTok)).state t1 outcome2).state
        = (Authorizer.refresh_token st t0 (.success newTok)).state := by
  have h1 : Authorizer.refresh_token st t0 (.success newTok)
      = { result := .ok true
          state := { token := some newTok, lastRefresh := some t0 }
          networkCalls := 1 } := by
    unfold Authorizer.refresh_token
    simp [hcd, hrt]
  rw [h1]
  have h2 : AuthorizerState.inCooldown
      { token := some newTok, lastRefresh := some t0 } t1 = true := by
    simp [AuthorizerState.inCooldown, hwin]
  unfold Authorizer.refresh_token
  simp [h2]

theorem refreshSeq_all_noRefreshToken (st : AuthorizerState)
    (hrt : st.refreshTokenOf = none) (hlr : st.lastRefresh = none) :
    ∀ calls, ∀ r ∈ Authorizer.refreshSeq st calls,
      r = .error AuthErrorKind.NoRefreshToken := by
  intro calls
  induction calls generalizing st with
  | nil => intro r hr; simp [Authorizer.refreshSeq] at hr
  | cons c rest ih =>
    obtain ⟨now, oc⟩ := c
    have hstep : Authorizer.refresh_token st now oc
        = { result := .error .NoRefreshToken, state := st, networkCalls := 0 } := by
      unfold Authorizer.refresh_token
      simp [AuthorizerState.inCooldown, hlr, hrt]
    intro r hr
    simp only [Authorizer.refreshSeq, hstep, List.mem_cons] at hr
    rcases hr with h | h
    · exact h
    · exact ih st hrt hlr r h

/-- C10: no predefined scope group includes `offline_access`; after a
`login()` whose scopes omit `offline_access`, every subsequent
`refresh_token()` call (any times, any provider outcomes) fails with the
no-refresh-token error; and a refresh can only ever succeed when the login
explicitly requested `offline_access`. -/
theorem offline_access_required_for_refresh :
    (∀ g ∈ predefinedScopeGroups, OAuthScope.offline_access ∉ g) ∧
    (∀ (scopes : List OAuthScope) (at' rt : String) (expiry : Nat)
        (calls : List (Nat × RefreshOutcome)),
      OAuthScope.offline_access ∉ scopes →
      ∀ r ∈ Authorizer.refreshSeq (Authorizer.login scopes at' rt expiry) calls,
        r = .error AuthErrorKind.NoRefreshToken) ∧
    (∀ (scopes : List OAuthScope) (at' rt : String) (expiry : Nat)
        (calls : List (Nat × RefreshOutcome)),
      (∃ r ∈ Authorizer.refreshSeq (Authorizer.login scopes at' rt expiry) calls,
        r = .ok true) →
      OAuthScope.offline_access ∈ scopes) := by
  have hmain : ∀ (scopes : List OAuthScope) (at' rt : String) (expiry : Nat)
      (calls : List (Nat × RefreshOutcome)),
      OAuthScope.offline_access ∉ scopes →
      ∀ r ∈ Authorizer.refreshSeq (Authorizer.login scopes at' rt expiry) calls,
        r = .error AuthErrorKind.NoRefreshToken := by
    intro scopes at' rt expiry calls hmem
    apply refreshSeq_all_noRefreshToken
    · simp [Authorizer.login, AuthorizerState.refreshTokenOf, Token.refresh_token, hmem]
    · rfl
  refine ⟨by decide, hmain, ?_⟩
  intro scopes at' rt expiry calls ⟨r, hr, hok⟩
  by_cases hmem : OAuthScope.offline_access ∈ scopes
  · exact hmem
  · exact absurd (hmain scopes at' rt expiry calls hmem r hr) (by rw [hok]; simp)

namespace RefreshRace

theorem inv_init (n : Nat) : Inv (init n) := by
  constructor
  · rfl
  · intro i h
    rcases Nat.lt_or_ge i n with hlt | hge
    · rw [List.get?_eq_get (by simpa [init] using hlt)] at h
      simp [init] at h
    · rw [List.get?_eq_none.mpr (by simpa [init] using hge)] at h
      exact absurd h (by simp)

theorem inv_stepCaller (s : RefreshRace) (i : Nat) (h : Inv s) :
    Inv (s.stepCaller i) := by
  obtain ⟨h1, h2⟩ := h
  unfold stepCaller
  cases hp : s.callers.get? i with
  | none => exact ⟨h1, h2⟩
  | some p =>
    cases p with
    | waiting => exact ⟨h1, h2⟩
    | done => exact ⟨h1, h2⟩
    | start =>
      by_cases hf : s.tokenFresh
      · rw [if_pos hf]
        refine ⟨by simpa using h1, ?_⟩
        intro j hj
        exact hf
      · rw [if_neg hf]
        by_cases hifl : s.inFlight
        · rw [if_pos hifl]
          refine ⟨by simpa using h1, ?_⟩
          intro j hj
          rcases eq_or_ne j i with rfl | hne
          · rw [List.get?_set_eq, hp] at hj
            simp at hj
          · rw [List.get?_set_ne _ _ (Ne.symm hne)] at hj
            exact h2 j hj
        · rw [if_neg hifl]
          constructor
          · simp only [Bool.not_eq_true] at hf hifl
            simp [hf, hifl] at h1
            simp [h1]
          · intro j hj
            rcases eq_or_ne j i with rfl | hne
            · rw [List.get?_set_eq, hp] at hj
              simp at hj
            · rw [List.get?_set_ne _ _ (Ne.symm hne)] at hj
              exact h2 j hj

theorem inv_stepComplete (s : RefreshRace) (h : Inv s) : Inv s.stepComplete := by
  obtain ⟨h1, h2⟩ := h
  unfold stepComplete
  by_cases hifl : s.inFlight
  · rw [if_pos hifl]
    constructor
    · simpa [hifl] using h1
    · intro j hj
      rfl
  · rw [if_neg hifl]
    exact ⟨h1, h2⟩

theorem inv_run (ds : List RaceDir) :
    ∀ s : RefreshRace, Inv s → Inv (s.run ds) := by
  induction ds with
  | nil => intro s h; exact h
  | cons d rest ih =>
    intro s h
    cases d with
    | run i => exact ih _ (inv_stepCaller s i h)
    | complete => exact ih _ (inv_stepComplete s h)

end RefreshRace

/-- C2: under cooperative scheduling, for every schedule of N concurrent
callers racing to refresh a stale token, at most one network call to the
token endpoint is ever made; and for every schedule under which all N ≥ 1
callers have finished, exactly one network call was made — the other
callers waited on that single in-flight attempt and reused its result. -/
theorem concurrent_refresh_single_call (n : Nat) (ds : List RaceDir) :
    ((RefreshRace.init n).run ds).networkCalls ≤ 1 ∧
    (0 < n →
      (∀ i, i < n → ((RefreshRace.init n).run ds).callers.get? i
        = some CallerPhase.done) →
      ((RefreshRace.init n).run ds).networkCalls = 1) := by
  obtain ⟨h1, h2⟩ := RefreshRace.inv_run ds _ (RefreshRace.inv_init n)
  constructor
  · rw [h1]
    split <;> simp
  · intro hn hdone
    have hfresh := h2 0 (hdone 0 hn)
    rw [h1, hfresh]
    simp

theorem concurrent_refresh_single_call_witness :
    0 < 2 ∧
    (∀ i, i < 2 →
      ((RefreshRace.init 2).run
        [RaceDir.run 0, RaceDir.run 1, RaceDir.complete]).callers.get? i
          = some CallerPhase.done) ∧
    ((RefreshRace.init 2).run
      [RaceDir.run 0, RaceDir.run 1, RaceDir.complete]).networkCalls = 1 :=
  ⟨by decide, by decide,
    (concurrent_refresh_single_call 2
      [RaceDir.run 0, RaceDir.run 1, RaceDir.complete]).2 (by decide) (by decide)⟩

namespace AioTransport

theorem sessionInv_apply (t : AioTransport) (op : TransportOp)
    (h : SessionInv t) : SessionInv (t.apply op) := by
  cases op with
  | openOp =>
    simp only [apply]
    unfold open'
    by_cases h0 : t.refCount = 0
    · rw [if_pos h0]
      intro id hid
      simp at hid ⊢
      omega
    · rw [if_neg h0]
      exact h
  | closeOp =>
    simp only [apply]
    unfold close
    intro id hid
    rcases hrc : t.refCount with _ | n
    · rw [hrc] at hid
      exact h id hid
    · cases n with
      | zero => rw [hrc] at hid; simp at hid
      | succ m => rw [hrc] at hid; exact h id hid

theorem nextSessionId_mono_apply (t : AioTransport) (op : TransportOp) :
    t.nextSessionId ≤ (t.apply op).nextSessionId := by
  cases op with
  | openOp =>
    simp only [apply]
    unfold open'
    by_cases h0 : t.refCount = 0
    · rw [if_pos h0]; simp
    · rw [if_neg h0]
  | closeOp =>
    simp only [apply]
    unfold close
    rcases hrc : t.refCount with _ | _ | n <;> simp

theorem nextSessionId_mono_runOps (ops : List TransportOp) :
    ∀ t : AioTransport, t.nextSessionId ≤ (t.runOps ops).nextSessionId := by
  induction ops with
  | nil => intro t; exact Nat.le_refl _
  | cons op rest ih =>
    intro t
    exact Nat.le_trans (nextSessionId_mono_apply t op) (ih (t.apply op))

theorem trace_inv (ops : List TransportOp) :
    ∀ t : AioTransport, SessionInv t →
      ∀ s ∈ trace t ops,
        SessionInv s ∧ s.nextSessionId ≤ (t.runOps ops).nextSessionId := by
  induction ops with
  | nil =>
    intro t ht s hs
    simp [trace] at hs
    subst hs
    exact ⟨ht, Nat.le_refl _⟩
  | cons op rest ih =>
    intro t ht s hs
    simp only [trace, List.mem_cons] at hs
    rcases hs with rfl | hs
    · exact ⟨ht, Nat.le_trans (nextSessionId_mono_apply s op)
        (nextSessionId_mono_runOps rest (s.apply op))⟩
    · exact ih (t.apply op) (sessionInv_apply t op ht) s hs

end AioTransport

/-- C6: `open()` increments and `close()` decrements the reference counter
by one; closing tears the pool down exactly when the counter returns to
zero (a close from a higher count keeps the pool); and an `open()` after
full closure installs a fresh pool — a session generation distinct from the
pool of every state visited earlier in the history. -/
theorem transport_refcounted_pool :
    (∀ t : AioTransport, t.open'.refCount = t.refCount + 1) ∧
    (∀ t : AioTransport, 0 < t.refCount → t.close.refCount = t.refCount - 1) ∧
    (∀ t : AioTransport, 1 < t.refCount → t.close.pool = t.pool) ∧
    (∀ t : AioTransport, t.refCount = 1 → t.close.pool = none) ∧
    (∀ t : AioTransport, t.refCount = 0 →
      t.open'.pool = some t.nextSessionId) ∧
    (∀ (ops : List TransportOp) (s : AioTransport) (oldId : Nat),
      s ∈ AioTransport.trace AioTransport.initT ops →
      s.pool = some oldId →
      (AioTransport.runOps AioTransport.initT ops).refCount = 0 →
      (AioTransport.runOps AioTransport.initT ops).open'.pool ≠ some oldId) := by
  refine ⟨?_, ?_, ?_, ?_, ?_, ?_⟩
  · intro t
    unfold AioTransport.open'
    by_cases h0 : t.refCount = 0
    · rw [if_pos h0, h0]
    · rw [if_neg h0]
  · intro t h
    unfold AioTransport.close
    rcases hrc : t.refCount with _ | _ | n <;> simp_all
  · intro t h
    unfold AioTransport.close
    rcases hrc : t.refCount with _ | _ | n <;> simp_all
  · intro t h
    unfold AioTransport.close
    rw [h]
  · intro t h
    unfold AioTransport.open'
    rw [if_pos h]
  · intro ops s oldId hmem hpool hzero
    have hinv := AioTransport.trace_inv ops AioTransport.initT
      (by intro id hid; simp [AioTransport.initT] at hid) s hmem
    have hlt : oldId < (AioTransport.runOps AioTransport.initT ops).nextSessionId :=
      Nat.lt_of_lt_of_le (hinv.1 oldId hpool) hinv.2
    unfold AioTransport.open'
    rw [if_pos hzero]
    intro hcontra
    simp at hcontra
    omega

theorem transport_refcounted_pool_witness :
    (0 : Nat) < 1 ∧
    ({ refCount := 1, pool := some 0, nextSessionId := 1 } :
      AioTransport).close.refCount = 0 ∧
    ({ refCount := 1, pool := some 0, nextSessionId := 1 } :
      AioTransport).close.pool = none :=
  ⟨by decide,
    transport_refcounted_pool.2.1
      { refCount := 1, pool := some 0, nextSessionId := 1 } (by decide),
    transport_refcounted_pool.2.2.2.1
      { refCount := 1, pool := some 0, nextSessionId := 1 } (by decide)⟩

theorem attemptRequest_all_transient (responses : Nat → HttpResult) :
    ∀ fuel i, (∀ j, i ≤ j → j < i + fuel → isTransient (responses j) = true) →
      attemptRequest responses fuel i = .error (.retriesExhausted (i + fuel)) := by
  intro fuel
  induction fuel with
  | zero => intro i _; simp [attemptRequest]
  | succ f ih =>
    intro i h
    have hi : isTransient (responses i) = true := h i (Nat.le_refl i) (by omega)
    unfold attemptRequest
    rw [if_pos hi, ih (i + 1) (fun j h1 h2 => h j (by omega) (by omega))]
    congr 1
    simp
    omega

/-- C7: with `max_attempts = 4`, a request answered 503 on the first three
attempts and non-transiently (e.g. 200) on the fourth returns that fourth
result; and any request whose first `max_attempts` outcomes are all
transient failures surfaces a `TransportError`. -/
theorem transport_retry_contract :
    (∀ responses : Nat → HttpResult,
      (∀ i, i < 3 → responses i = .status 503) →
      isTransient (responses 3) = false →
      executeRequest 4 responses = .ok (responses 3)) ∧
    (∀ (maxAttempts : Nat) (responses : Nat → HttpResult),
      (∀ i, i < maxAttempts → isTransient (responses i) = true) →
      executeRequest maxAttempts responses
        = .error (.retriesExhausted maxAttempts)) := by
  constructor
  · intro responses h503 hok
    have e0 : isTransient (responses 0) = true := by rw [h503 0 (by omega)]; rfl
    have e1 : isTransient (responses 1) = true := by rw [h503 1 (by omega)]; rfl
    have e2 : isTransient (responses 2) = true := by rw [h503 2 (by omega)]; rfl
    unfold executeRequest attemptRequest
    rw [if_pos e0]
    unfold attemptRequest
    rw [if_pos e1]
    unfold attemptRequest
    rw [if_pos e2]
    unfold attemptRequest
    rw [if_neg (by rw [hok]; exact Bool.false_ne_true)]
  · intro maxAttempts responses h
    have := attemptRequest_all_transient responses maxAttempts 0
      (fun j h1 h2 => h j (by omega))
    simpa [executeRequest] using this

theorem transport_retry_contract_witness :
    executeRequest 4
      (fun i => if i < 3 then .status 503 else .status 200) =
        .ok (.status 200) := by
  have := transport_retry_contract.1
    (fun i => if i < 3 then .status 503 else .status 200)
    (by intro i hi; simp [hi]) (by decide)
  simpa using this

/-- C5: a call answered 401 performs exactly one forced refresh and exactly
one retry (two requests total); no call ever performs more than one forced
refresh or sends more than two requests; and an auth failure is surfaced
only after that single forced refresh-and-retry, i.e. only when both the
original request and the retry were answered 401. -/
theorem connector_401_contract (responses : Nat → Nat) :
    (call_api responses).forcedRefreshes ≤ 1 ∧
    (call_api responses).requestsSent ≤ 2 ∧
    (responses 0 = 401 →
      (call_api responses).forcedRefreshes = 1 ∧
      (call_api responses).requestsSent = 2) ∧
    ((call_api responses).result = .unauthorized →
      (call_api responses).forcedRefreshes = 1 ∧
      responses 0 = 401 ∧ responses 1 = 401) := by
  unfold call_api
  by_cases h0 : responses 0 = 401
  · rw [if_pos h0]
    by_cases h1 : responses 1 = 401
    · rw [if_pos h1]
      exact ⟨by simp, by simp, fun _ => ⟨rfl, rfl⟩, fun _ => ⟨rfl, h0, h1⟩⟩
    · rw [if_neg h1]
      exact ⟨by simp, by simp, fun _ => ⟨rfl, rfl⟩, fun h => by simp at h⟩
  · rw [if_neg h0]
    exact ⟨by simp, by simp, fun h => absurd h h0, fun h => by simp at h⟩

theorem connector_401_contract_witness :
    (call_api (fun n => if n = 0 then 401 else 200)).forcedRefreshes = 1 ∧
    (call_api (fun n => if n = 0 then 401 else 200)).requestsSent = 2 :=
  (connector_401_contract (fun n => if n = 0 then 401 else 200)).2.2.1 (by decide)

theorem splitChunksGo_flatten (c : Nat) (hc : 0 < c) :
    ∀ (fuel : Nat) (data : List Nat), data.length ≤ fuel →
      (splitChunksGo c fuel data).flatten = data := by
  intro fuel
  induction fuel with
  | zero =>
    intro data h
    have : data = [] := List.eq_nil_of_length_eq_zero (Nat.le_zero.mp h)
    subst this
    rfl
  | succ f ih =>
    intro data h
    cases data with
    | nil => rfl
    | cons x xs =>
      have hlen : ((x :: xs).drop c).length ≤ f := by
        simp only [List.length_drop, List.length_cons]
        simp only [List.length_cons] at h
        omega
      simp only [splitChunksGo, List.flatten_cons, ih _ hlen]
      exact List.take_append_drop c (x :: xs)

/-- C8: for every chunk size C > 0 and every payload (hence in particular
payloads of size 0, C-1, C, C+1 and 10·C), uploading through the chunked
I/O manager and downloading back yields byte-identical content; and the
zero-byte upload still creates the destination, producing a retrievable
empty remote object rather than being skipped. -/
theorem chunked_roundtrip (c : Nat) (hc : 0 < c) :
    (∀ data : List Nat, download (upload c data) = some data) ∧
    (upload c []).created = true ∧
    download (upload c []) = some [] := by
  have hrt : ∀ data : List Nat, download (upload c data) = some data := by
    intro data
    show (if (true : Bool) then some (splitChunks c data).flatten else none)
      = some data
    rw [if_pos rfl]
    exact congrArg some
      (splitChunksGo_flatten c hc data.length data (Nat.le_refl _))
  exact ⟨hrt, rfl, hrt []⟩

theorem chunked_roundtrip_witness :
    download (upload 4 []) = some [] ∧
    download (upload 4 (List.range 3)) = some (List.range 3) ∧
    download (upload 4 (List.range 4)) = some (List.range 4) ∧
    download (upload 4 (List.range 5)) = some (List.range 5) ∧
    download (upload 4 (List.range 40)) = some (List.range 40) :=
  ⟨(chunked_roundtrip 4 (by decide)).1 [],
    (chunked_roundtrip 4 (by decide)).1 (List.range 3),
    (chunked_roundtrip 4 (by decide)).1 (List.range 4),
    (chunked_roundtrip 4 (by decide)).1 (List.range 5),
    (chunked_roundtrip 4 (by decide)).1 (List.range 40)⟩

theorem runChunks_cancelled (k : Nat) (ok : Nat → Bool)
    (hok : ∀ i, i < k → ok i = true) :
    ∀ fuel i, i ≤ k → k < i + fuel →
      runChunks (some k) ok fuel i
        = { outcome := .cancelled, chunksCompleted := k, finalized := false } := by
  intro fuel
  induction fuel with
  | zero => intro i h1 h2; omega
  | succ f ih =>
    intro i h1 h2
    rcases Nat.lt_or_ge i k with hlt | hge
    · have hcanc : cancelRequested (some k) i = false := by
        simp [cancelRequested]
        omega
      unfold runChunks
      rw [hcanc]
      simp only [Bool.false_eq_true, if_false]
      rw [if_pos (hok i hlt)]
      exact ih (i + 1) (by omega) (by omega)
    · have hik : i = k := by omega
      subst hik
      have hcanc : cancelRequested (some i) i = true := by
        simp [cancelRequested]
      unfold runChunks
      rw [hcanc]
      simp

/-- C9: cancelling an n-chunk transfer once k of n chunks have completed
(0 ≤ k < n, the first k chunks succeeding) terminates the transfer in the
`TransferCancelled` state — with exactly k chunks completed, not in
`TransferError` for any chunk index — and the finalize call is never
made. -/
theorem transfer_cancellation (n k : Nat) (ok : Nat → Bool)
    (hk : k < n) (hok : ∀ i, i < k → ok i = true) :
    runTransfer n (some k) ok
      = { outcome := .cancelled, chunksCompleted := k, finalized := false } ∧
    (∀ j, (runTransfer n (some k) ok).outcome ≠ TransferOutcome.failed j) ∧
    (runTransfer n (some k) ok).finalized = false := by
  have h := runChunks_cancelled k ok hok n 0 (Nat.zero_le k) (by omega)
  refine ⟨h, ?_, ?_⟩
  · intro j
    unfold runTransfer
    rw [h]
    simp
  · unfold runTransfer
    rw [h]

theorem transfer_cancellation_witness :
    runTransfer 5 (some 2) (fun _ => true)
      = { outcome := .cancelled, chunksCompleted := 2, finalized := false } :=
  (transfer_cancellation 5 2 (fun _ => true) (by decide)
    (fun _ _ => rfl)).1

theorem get_default_headers_expiry_contract_witness :
    ({ token := some staleToken, lastRefresh := none } : AuthorizerState).token
        = some staleToken ∧
    staleToken.isStale 100 = true ∧
    (Authorizer.get_default_headers
      { token := some staleToken, lastRefresh := none } 100
      (.success freshToken)).refreshAttempts = 1 :=
  ⟨rfl, by decide,
    (get_default_headers_expiry_contract
      { token := some staleToken, lastRefresh := none } 100
      (.success freshToken)).1 staleToken rfl (by decide)⟩

theorem refresh_token_error_contract_witness :
    (Authorizer.refresh_token
      { token := some { staleToken with refresh_token := none }, lastRefresh := none }
      100 .transportError).result = .error .NoRefreshToken :=
  (refresh_token_error_contract
    { token := some { staleToken with refresh_token := none }, lastRefresh := none }
    100 .transportError (by decide)).1 (by decide)

theorem offline_access_required_for_refresh_witness :
    OAuthScope.offline_access ∉ ([.openid] : List OAuthScope) ∧
    (Authorizer.refresh_token
      (Authorizer.login [.openid] "at" "rt" 3600) 5000 .transportError).result
        = .error AuthErrorKind.NoRefreshToken :=
  ⟨by decide,
    offline_access_required_for_refresh.2.1 [.openid] "at" "rt" 3600
      [(5000, .transportError)] (by decide) _ (by simp [Authorizer.refreshSeq])⟩

theorem refresh_token_cooldown_witness :
    (Authorizer.refresh_token
      (Authorizer.refresh_token
        { token := some staleToken, lastRefresh := none } 100
        (.success freshToken)).state
      200 .transportError).result = .ok false :=
  (refresh_token_cooldown
    { token := some staleToken, lastRefresh := none } 100 200 freshToken
    .transportError "rt" (by decide) (by decide) (by decide)).2.1

end EvoSdk
